import Mathlib

/-!
A verification development for the oneof discriminator-tagging library
(marshal.go, custom_value_wrapper.go, error.go).

The embedding models:
  * JSON values as an inductive `Json`; a raw `jsontext.Value` field of a
    wrapper struct is modelled as `Option Json` (`none` = zero-length bytes,
    i.e. an absent member; `some j` = a present encoded value, so that
    the Go test `len(v) != 0` becomes `isSome`).
  * Go values of the abstract interface type `T` as `GoVal`: either a plain
    value of a named concrete type carrying its default JSON encoding as
    content, a pointer into an explicit heap (so that the shallow copy
    `opt := opts[tag]` of a pointer-registered option and the write-through
    of the nested unmarshal are observable), or the opaque raw-payload type
    `*jsontext.Value`.
  * The underlying go-json-experiment codec at the boundary the source uses:
    default encode of a value is its content, default decode into a value
    replaces the content (writing through pointers), struct-tag based
    encoding/decoding of the three wrapper types (including `omitempty`,
    which in json v2 drops members whose value encodes as an empty JSON
    value: null, empty string, empty object, empty array; `json:",inline"`
    which collects unmatched members; and the default rejection of
    duplicate object member names).
  * The recursion guard `skipNext` as an explicit boolean threaded through
    the hook functions, with an event trace recording every hook invocation
    (the guard value it observed and whether it passed through or
    intercepted) and every nested default encode/decode request.
-/

namespace Oneof

/-- A JSON value. Numbers are modelled as integers (no claim depends on
floating point). Objects are member lists in wire order. -/
inductive Json where
  | null
  | bool (b : Bool)
  | num (n : Int)
  | str (s : String)
  | arr (elems : List Json)
  | obj (members : List (String × Json))

mutual

/-- Decidable equality for Json (hand-written: the nested lists defeat the
automatic derivation). -/
def Json.decEq : (a b : Json) → Decidable (a = b)
  | .null, .null => isTrue rfl
  | .bool a, .bool b =>
    match (inferInstance : Decidable (a = b)) with
    | isTrue hv => isTrue (by rw [hv])
    | isFalse hv => isFalse (fun h => hv (Json.bool.inj h))
  | .num a, .num b =>
    match (inferInstance : Decidable (a = b)) with
    | isTrue hv => isTrue (by rw [hv])
    | isFalse hv => isFalse (fun h => hv (Json.num.inj h))
  | .str a, .str b =>
    match (inferInstance : Decidable (a = b)) with
    | isTrue hv => isTrue (by rw [hv])
    | isFalse hv => isFalse (fun h => hv (Json.str.inj h))
  | .arr xs, .arr ys =>
    match Json.decEqList xs ys with
    | isTrue hv => isTrue (by rw [hv])
    | isFalse hv => isFalse (fun h => hv (Json.arr.inj h))
  | .obj xs, .obj ys =>
    match Json.decEqMembers xs ys with
    | isTrue hv => isTrue (by rw [hv])
    | isFalse hv => isFalse (fun h => hv (Json.obj.inj h))
  | .null, .bool _ => isFalse (fun h => Json.noConfusion h)
  | .null, .num _ => isFalse (fun h => Json.noConfusion h)
  | .null, .str _ => isFalse (fun h => Json.noConfusion h)
  | .null, .arr _ => isFalse (fun h => Json.noConfusion h)
  | .null, .obj _ => isFalse (fun h => Json.noConfusion h)
  | .bool _, .null => isFalse (fun h => Json.noConfusion h)
  | .bool _, .num _ => isFalse (fun h => Json.noConfusion h)
  | .bool _, .str _ => isFalse (fun h => Json.noConfusion h)
  | .bool _, .arr _ => isFalse (fun h => Json.noConfusion h)
  | .bool _, .obj _ => isFalse (fun h => Json.noConfusion h)
  | .num _, .null => isFalse (fun h => Json.noConfusion h)
  | .num _, .bool _ => isFalse (fun h => Json.noConfusion h)
  | .num _, .str _ => isFalse (fun h => Json.noConfusion h)
  | .num _, .arr _ => isFalse (fun h => Json.noConfusion h)
  | .num _, .obj _ => isFalse (fun h => Json.noConfusion h)
  | .str _, .null => isFalse (fun h => Json.noConfusion h)
  | .str _, .bool _ => isFalse (fun h => Json.noConfusion h)
  | .str _, .num _ => isFalse (fun h => Json.noConfusion h)
  | .str _, .arr _ => isFalse (fun h => Json.noConfusion h)
  | .str _, .obj _ => isFalse (fun h => Json.noConfusion h)
  | .arr _, .null => isFalse (fun h => Json.noConfusion h)
  | .arr _, .bool _ => isFalse (fun h => Json.noConfusion h)
  | .arr _, .num _ => isFalse (fun h => Json.noConfusion h)
  | .arr _, .str _ => isFalse (fun h => Json.noConfusion h)
  | .arr _, .obj _ => isFalse (fun h => Json.noConfusion h)
  | .obj _, .null => isFalse (fun h => Json.noConfusion h)
  | .obj _, .bool _ => isFalse (fun h => Json.noConfusion h)
  | .obj _, .num _ => isFalse (fun h => Json.noConfusion h)
  | .obj _, .str _ => isFalse (fun h => Json.noConfusion h)
  | .obj _, .arr _ => isFalse (fun h => Json.noConfusion h)

/-- Decidable equality for lists of Json values. -/
def Json.decEqList : (xs ys : List Json) → Decidable (xs = ys)
  | [], [] => isTrue rfl
  | [], _ :: _ => isFalse (fun h => List.noConfusion h)
  | _ :: _, [] => isFalse (fun h => List.noConfusion h)
  | x :: xs, y :: ys =>
    match Json.decEq x y with
    | isFalse hh => isFalse (fun h => hh (List.head_eq_of_cons_eq h))
    | isTrue hh =>
      match Json.decEqList xs ys with
      | isTrue ht => isTrue (by rw [hh, ht])
      | isFalse ht => isFalse (fun h => ht (List.tail_eq_of_cons_eq h))

/-- Decidable equality for JSON object member lists. -/
def Json.decEqMembers : (xs ys : List (String × Json)) → Decidable (xs = ys)
  | [], [] => isTrue rfl
  | [], _ :: _ => isFalse (fun h => List.noConfusion h)
  | _ :: _, [] => isFalse (fun h => List.noConfusion h)
  | (k, x) :: xs, (k', y) :: ys =>
    match (inferInstance : Decidable (k = k')) with
    | isFalse hk =>
      isFalse (fun h => hk (congrArg Prod.fst (List.head_eq_of_cons_eq h)))
    | isTrue hk =>
      match Json.decEq x y with
      | isFalse hh =>
        isFalse (fun h => hh (congrArg Prod.snd (List.head_eq_of_cons_eq h)))
      | isTrue hh =>
        match Json.decEqMembers xs ys with
        | isTrue ht => isTrue (by rw [hk, hh, ht])
        | isFalse ht => isFalse (fun h => ht (List.tail_eq_of_cons_eq h))

end

instance : DecidableEq Json := Json.decEq

/-- json v2 treats these as "empty JSON values" for the purpose of
`omitempty`: null, empty string, empty object, empty array. -/
def isEmptyJson : Json → Bool
  | .null => true
  | .str "" => true
  | .obj [] => true
  | .arr [] => true
  | _ => false

def Json.isObj : Json → Bool
  | .obj _ => true
  | _ => false

def Json.isStr : Json → Bool
  | .str _ => true
  | _ => false

/-- First-match lookup among the members of a JSON object (the source
decodes wrapper objects whose member names are duplicate-free, so the
first match is the match). -/
def mapLookupJ (k : String) : List (String × Json) → Option Json
  | [] => none
  | (k', v) :: rest => if k' = k then some v else mapLookupJ k rest

/-- The error taxonomy of the library (error.go plus the fmt.Errorf
failures of marshal.go and custom_value_wrapper.go, classified by the
spec's taxonomy):
  * `unknownGoType`: ErrUnknownGoType (encode-side registry miss);
  * `unknownDiscriminatorValue`: ErrUnknownDiscriminatorValue (decode-side
    registry miss);
  * `malformedWrapper`: wrapper decoding failed because the input is not an
    object or the discriminator member is missing or not a string;
  * `ambiguousPayloadShape`: the custom wrapper found both inline and
    nested payload forms;
  * `configurationError`: customKeyWrappedType.MarshalJSONV2's check for an
    empty discriminator key;
  * `codecError`: other failures surfaced from the host codec (for example
    its default rejection of duplicate object member names);
  * `outOfFuel`: an artifact of the bounded-recursion embedding, never
    reached from the top-level entry points. -/
inductive Err where
  | unknownGoType (typ : String)
  | unknownDiscriminatorValue (v : String)
  | malformedWrapper (msg : String)
  | ambiguousPayloadShape
  | configurationError (msg : String)
  | codecError (msg : String)
  | outOfFuel
deriving DecidableEq

/-- Result of a fallible operation (Go's `(x, error)` convention). -/
inductive Res (α : Type) where
  | ok (a : α)
  | err (e : Err)
deriving DecidableEq

/-- The heap backing pointer-registered options: address-indexed content,
each cell holding the pointee's state, represented by its default JSON
encoding. -/
abbrev Heap := List Json

/-- A Go value seen through the abstract interface type `T`:
  * `val t j`: a plain (non-pointer) value of concrete type `t` whose
    current state, represented by its default JSON encoding, is `j`;
  * `ptr t a`: a pointer to a value of concrete type `t` stored at heap
    address `a` (for example a registered `&url.URL{}`);
  * `raw j`: a `*jsontext.Value` (the opaque raw-payload passthrough type)
    currently holding `j`. -/
inductive GoVal where
  | val (typeName : String) (content : Json)
  | ptr (typeName : String) (addr : Nat)
  | raw (content : Json)
deriving DecidableEq

/-- `reflect.TypeOf` with one level of pointer indirection stripped, as in
discriminatorValueFor. -/
def GoVal.strippedTypeName : GoVal → String
  | .val t _ => t
  | .ptr t _ => t
  | .raw _ => "jsontext.Value"

/-- The `%T` formatting used by ErrUnknownGoType (keeps the pointer star). -/
def GoVal.displayTypeName : GoVal → String
  | .val t _ => t
  | .ptr t _ => "*" ++ t
  | .raw _ => "*jsontext.Value"

/-- Whether the value is of the opaque raw-payload type, i.e. the
`any(t).(*jsontext.Value)` type assertion of MarshalFunc. -/
def GoVal.isRawPayload : GoVal → Bool
  | .raw _ => true
  | _ => false

/-- The host codec's default encoding of a value (the nested
`json.Marshal(t, jsonopts)` once the hook has been skipped): a plain
value encodes as its content, a pointer as its pointee's content. -/
def defaultEncode (h : Heap) : GoVal → Json
  | .val _ j => j
  | .ptr _ a => h.getD a .null
  | .raw j => j

/-- The host codec's default decoding of a payload into an existing value
(the nested `json.Unmarshal(v, optPtr, jsonopts)` once the hook has been
skipped): decoding into a plain value replaces the local copy's content,
while decoding into a pointer writes through it into the heap. -/
def defaultDecodeInto (h : Heap) : GoVal → Json → GoVal × Heap
  | .val t _, j => (.val t j, h)
  | .ptr t a, j => (.ptr t a, h.set a j)
  | .raw _, j => (.raw j, h)

/-- The option map `map[string]T` as an association list whose order
models the (unspecified) map iteration order; plain `opts[key]` lookup. -/
def mapLookup (k : String) : List (String × GoVal) → Option GoVal
  | [] => none
  | (k', v) :: rest => if k' = k then some v else mapLookup k rest

/-- The loop of discriminatorValueFor: the key of the first option whose
pointer-stripped type matches. -/
def findTagLoop (t : String) : List (String × GoVal) → Option String
  | [] => none
  | (k, ov) :: rest => if ov.strippedTypeName = t then some k else findTagLoop t rest

/-- discriminatorValueFor (marshal.go): the key of the first option whose
pointer-stripped reflect type matches the value's; the Go code then treats
an empty found key as not-found (`if key == "" `). -/
def discriminatorValueFor (v : GoVal) (opts : List (String × GoVal)) : Option String :=
  match findTagLoop v.strippedTypeName opts with
  | none => none
  | some k => if k = "" then none else some k

/-- CustomValueWrapper (custom_value_wrapper.go): configurable key names
and inline toggle. -/
structure CustomValueWrapper where
  DiscriminatorKey : String
  NestedValueKey : String
  InlineObjects : Bool

/-- The key defaulting performed by CustomValueWrapper.Wrap and
CustomValueWrapper.Empty: an unset (empty) discriminator key falls back to
the package default "_type". -/
def CustomValueWrapper.effDiscriminatorKey (b : CustomValueWrapper) : String :=
  if b.DiscriminatorKey = "" then "_type" else b.DiscriminatorKey

/-- Likewise for the nested value key, defaulting to "_value". -/
def CustomValueWrapper.effNestedValueKey (b : CustomValueWrapper) : String :=
  if b.NestedValueKey = "" then "_value" else b.NestedValueKey

/-- customKeyWrappedType: the custom wrapper value. The two payload slots
are raw jsontext.Values (`none` = zero length). -/
structure CustomKeyWrapped where
  discriminatorKey : String
  discriminatorValue : String
  nestedValueKey : String
  nestedValue : Option Json
  inlineValue : Option Json

/-- CustomValueWrapper.Wrap: defaults the keys, then slots an object
payload inline when InlineObjects is set, nesting everything else. -/
def CustomValueWrapper.wrap (b : CustomValueWrapper) (typ : String) (v : Option Json) :
    CustomKeyWrapped :=
  match v with
  | some j =>
    if j.isObj && b.InlineObjects then
      { discriminatorKey := b.effDiscriminatorKey, discriminatorValue := typ,
        nestedValueKey := b.effNestedValueKey, nestedValue := none, inlineValue := some j }
    else
      { discriminatorKey := b.effDiscriminatorKey, discriminatorValue := typ,
        nestedValueKey := b.effNestedValueKey, nestedValue := some j, inlineValue := none }
  | none =>
    { discriminatorKey := b.effDiscriminatorKey, discriminatorValue := typ,
      nestedValueKey := b.effNestedValueKey, nestedValue := none, inlineValue := none }

/-- The key-sorting comparison used when json.Deterministic is requested
(sort.Strings on the member names; pairs are compared by key). -/
def keyLe (p q : String × Json) : Prop := p.1 ≤ q.1

instance : DecidableRel keyLe := fun p q => (inferInstance : Decidable (p.1 ≤ q.1))

instance : IsTotal (String × Json) keyLe := ⟨fun p q => le_total p.1 q.1⟩

instance : IsTrans (String × Json) keyLe := ⟨fun _ _ _ h1 h2 => le_trans h1 h2⟩

/-- customKeyWrappedType.MarshalJSONV2: checks the discriminator key,
writes the discriminator member, then either manually inlines an object
payload (decoding it to a map first, emitting its members sorted when
json.Deterministic is set and in map order otherwise), or writes the
nested payload under the nested value key. The host jsontext encoder
rejects duplicate member names, modelled by the explicit name checks. -/
def CustomKeyWrapped.marshalJSONV2 (w : CustomKeyWrapped) (det : Bool) : Res Json :=
  if w.discriminatorKey = "" then
    .err (.configurationError "custom discriminator key is empty")
  else
    match w.inlineValue, w.nestedValue with
    | some _, some _ => .err (.ambiguousPayloadShape)
    | some iv, none =>
      match iv with
      | .obj ms =>
        if (ms.map Prod.fst).Nodup then
          if w.discriminatorKey ∈ ms.map Prod.fst then
            .err (.codecError "duplicate object member name")
          else
            .ok (.obj ((w.discriminatorKey, .str w.discriminatorValue) ::
              (if det then List.insertionSort keyLe ms else ms)))
        else .err (.codecError "duplicate object member name")
      | _ => .err (.codecError "failed to unmarshal inline value to map")
    | none, some nv =>
      if w.discriminatorKey = w.nestedValueKey then
        .err (.codecError "duplicate object member name")
      else
        .ok (.obj [(w.discriminatorKey, .str w.discriminatorValue),
                   (w.nestedValueKey, nv)])
    | none, none =>
      .ok (.obj [(w.discriminatorKey, .str w.discriminatorValue)])

/-- customKeyWrappedType.UnmarshalJSONV2, returning the type/payload pair
that Type() and Value() subsequently observe. Steps: require an object;
decode it to a map (the decoder rejects duplicate names); require a string
discriminator member; delete it; if nothing remains, return early (note:
without ever setting the discriminator value, which stays as constructed,
i.e. empty); if the nested value key is present, everything else must be
gone or the decode fails; otherwise the remaining members, re-serialized
as an object, are the payload. -/
def decodeCustom (dk nk : String) (input : Json) : Res (String × Option Json) :=
  match input with
  | .obj ms =>
    if (ms.map Prod.fst).Nodup then
      match mapLookupJ dk ms with
      | none => .err (.malformedWrapper ("missing discriminator " ++ dk))
      | some (.str dvs) =>
        let m1 := ms.filter (fun p => !(p.1 = dk))
        if m1.isEmpty then
          .ok ("", none)
        else
          match mapLookupJ nk m1 with
          | some nv =>
            let m2 := m1.filter (fun p => !(p.1 = nk))
            if m2.isEmpty then .ok (dvs, some nv)
            else .err (.ambiguousPayloadShape)
          | none => .ok (dvs, some (.obj m1))
      | some _ =>
        .err (.malformedWrapper ("discriminator " ++ dk ++ " must be a string"))
    else .err (.codecError "duplicate object member name")
  | _ => .err (.malformedWrapper "expected object start")

/-- The default struct-tag decoding of alwaysNestWrappedValue: the input
must be an object (with no duplicate member names); the member "_type"
fills the string field Typ when present (an absent member leaves the zero
value "", a non-string member is a codec type error, classified
MalformedWrapper by the spec's taxonomy); the member "_value" fills the
raw NestedValue; unknown members are ignored. -/
def decodeNested (input : Json) : Res (String × Option Json) :=
  match input with
  | .obj ms =>
    if (ms.map Prod.fst).Nodup then
      match mapLookupJ "_type" ms with
      | none => .ok ("", mapLookupJ "_value" ms)
      | some (.str s) => .ok (s, mapLookupJ "_value" ms)
      | some _ => .err (.malformedWrapper "cannot unmarshal non-string into Typ")
    else .err (.codecError "duplicate object member name")
  | _ => .err (.malformedWrapper "cannot unmarshal non-object into wrapper")

/-- The default struct-tag decoding of inlineObjectsWrappedValue: as for
the nested wrapper, but the members other than "_type" and "_value" are
collected, in input order, by the inline jsontext.Value field; Value()
then prefers a present nested member over the inline remainder. -/
def decodeInline (input : Json) : Res (String × Option Json) :=
  match input with
  | .obj ms =>
    if (ms.map Prod.fst).Nodup then
      let rest := ms.filter (fun p => !(p.1 = "_type") && !(p.1 = "_value"))
      let inlinePart : Option Json := if rest.isEmpty then none else some (.obj rest)
      let payload : Option Json :=
        match mapLookupJ "_value" ms with
        | some nv => some nv
        | none => inlinePart
      match mapLookupJ "_type" ms with
      | none => .ok ("", payload)
      | some (.str s) => .ok (s, payload)
      | some _ => .err (.malformedWrapper "cannot unmarshal non-string into Typ")
    else .err (.codecError "duplicate object member name")
  | _ => .err (.malformedWrapper "cannot unmarshal non-object into wrapper")

/-- A wrapping strategy: WrapNested (the default), WrapInline, or
CustomValueWrapper.Wrap. -/
inductive Strategy where
  | nestObjects
  | inlineObjects
  | custom (b : CustomValueWrapper)

/-- Encoding a wrapped value `wrapFunc(typ, v)` with json.MarshalEncode:
  * WrapNested: a struct with Typ under "_type" and the raw payload under
    "_value" with omitempty, so a payload that is an empty JSON value is
    omitted;
  * WrapInline: an object payload is inlined after the "_type" member (the
    encoder rejecting duplicate names); any other payload nests exactly
    like WrapNested;
  * custom: CustomValueWrapper.Wrap followed by
    customKeyWrappedType.MarshalJSONV2. -/
def encodeWrapper (strat : Strategy) (det : Bool) (typ : String) (v : Json) : Res Json :=
  match strat with
  | .nestObjects =>
    .ok (.obj (("_type", .str typ) ::
      (if isEmptyJson v then [] else [("_value", v)])))
  | .inlineObjects =>
    match v with
    | .obj ms =>
      if (("_type" :: ms.map Prod.fst)).Nodup then
        .ok (.obj (("_type", .str typ) :: ms))
      else .err (.codecError "duplicate object member name")
    | _ =>
      .ok (.obj (("_type", .str typ) ::
        (if isEmptyJson v then [] else [("_value", v)])))
  | .custom b => (b.wrap typ (some v)).marshalJSONV2 det

/-- Decoding into the empty wrapper `wrapFunc("", nil)` and reading back
Type() and Value(). -/
def decodeWrapper (strat : Strategy) (input : Json) : Res (String × Option Json) :=
  match strat with
  | .nestObjects => decodeNested input
  | .inlineObjects => decodeInline input
  | .custom b => decodeCustom b.effDiscriminatorKey b.effNestedValueKey input

/-- Config (marshal.go): the optional encode-side fallback and the wrap
strategy (nil WrapFunc defaults to WrapNested). -/
structure Config where
  replaceMissingTypeFunc : Option (GoVal → String)
  wrapFunc : Option Strategy

/-- The strategy actually used (`if wrapFunc == nil { wrapFunc = WrapNested }`). -/
def Config.effStrategy (cfg : Config) : Strategy :=
  cfg.wrapFunc.getD .nestObjects

/-- What a hook invocation did: passed through because the recursion guard
was set, passed through because the value is the raw-payload type, or
proceeded with interception. -/
inductive HookAct where
  | skipGuard
  | skipRaw
  | intercept
deriving DecidableEq

/-- Observable events of one pipeline instance, in order: each hook
invocation records the guard value it observed and what it did; a nested
event marks the pipeline issuing a default encode/decode request through
the host codec's top-level entry point. -/
inductive Ev where
  | marshalHookCall (guardSeen : Bool) (act : HookAct)
  | unmarshalHookCall (guardSeen : Bool) (act : HookAct)
  | nestedMarshalReq
  | nestedUnmarshalReq
deriving DecidableEq

/-- What the hook returns to the host codec: json.SkipFunc (pass-through)
or a completed interception. -/
inductive MHookOut where
  | skipFunc
  | done (r : Res Json)
deriving DecidableEq

inductive UHookOut where
  | skipFunc
  | done (r : Res GoVal)
deriving DecidableEq

/-- The discriminator resolution step of MarshalFunc: found tag, or tag
produced by the configured fallback, or ErrUnknownGoType. -/
def resolveDiscriminator (opts : List (String × GoVal)) (cfg : Config) (t : GoVal) :
    Res String :=
  match discriminatorValueFor t opts with
  | some d => .ok d
  | none =>
    match cfg.replaceMissingTypeFunc with
    | none => .err (.unknownGoType t.displayTypeName)
    | some f => .ok (f t)

/-- One invocation of the closure created by MarshalFunc. `nestedM` stands
for the host codec's top-level `json.Marshal(t, jsonopts)` entry, which
the interception branch calls with the guard freshly set (the model of
`*skipNextPtr = true` immediately before the call). Returns the guard
state left behind, the events in order, and the hook's answer. -/
def marshalHookF (opts : List (String × GoVal)) (cfg : Config) (det : Bool)
    (nestedM : Bool → GoVal → Heap → Bool × List Ev × Res Json)
    (g : Bool) (t : GoVal) (h : Heap) : Bool × List Ev × MHookOut :=
  if g then
    (false, [.marshalHookCall true .skipGuard], .skipFunc)
  else if t.isRawPayload then
    (g, [.marshalHookCall false .skipRaw], .skipFunc)
  else
    match resolveDiscriminator opts cfg t with
    | .err e => (g, [.marshalHookCall false .intercept], .done (.err e))
    | .ok d =>
      let (g2, evs2, r2) := nestedM true t h
      match r2 with
      | .err e =>
        (g2, .marshalHookCall false .intercept :: .nestedMarshalReq :: evs2,
         .done (.err e))
      | .ok jv =>
        (g2, .marshalHookCall false .intercept :: .nestedMarshalReq :: evs2,
         .done (encodeWrapper cfg.effStrategy det d jv))

/-- The host codec's top-level marshal entry for a value of the hooked
type: it invokes the hook first and, on json.SkipFunc, falls back to the
default encoding. Fuel bounds the hook/entry mutual recursion; the
top-level entry below supplies enough for the guard protocol to bottom
out. -/
def hostMarshal (opts : List (String × GoVal)) (cfg : Config) (det : Bool) :
    Nat → Bool → GoVal → Heap → Bool × List Ev × Res Json
  | 0, g, _, _ => (g, [], .err .outOfFuel)
  | n + 1, g, t, h =>
    match marshalHookF opts cfg det (hostMarshal opts cfg det n) g t h with
    | (g1, evs, .skipFunc) => (g1, evs, .ok (defaultEncode h t))
    | (g1, evs, .done r) => (g1, evs, r)

/-- One invocation of the closure created by UnmarshalFunc. `target` is
the concrete type behind the `*T` destination; the source never inspects
it (in particular there is no raw-payload check on this side). `nestedU`
stands for the host codec's top-level `json.Unmarshal(v, optPtr,
jsonopts)` entry used for the nested decode of a non-empty payload into
the shallow copy `opt` of the selected option. -/
def unmarshalHookF (opts : List (String × GoVal)) (cfg : Config)
    (nestedU : Bool → GoVal → Json → Heap → Bool × List Ev × Heap × Res GoVal)
    (g : Bool) (target : GoVal) (input : Json) (h : Heap) :
    Bool × List Ev × Heap × UHookOut :=
  if g then
    (false, [.unmarshalHookCall true .skipGuard], h, .skipFunc)
  else
    match decodeWrapper cfg.effStrategy input with
    | .err e => (g, [.unmarshalHookCall false .intercept], h, .done (.err e))
    | .ok (tag, payload) =>
      match mapLookup tag opts with
      | none =>
        (g, [.unmarshalHookCall false .intercept], h,
         .done (.err (.unknownDiscriminatorValue tag)))
      | some opt =>
        match payload with
        | none => (g, [.unmarshalHookCall false .intercept], h, .done (.ok opt))
        | some pj =>
          let (g2, evs2, h2, r2) := nestedU true opt pj h
          match r2 with
          | .err e =>
            (g2, .unmarshalHookCall false .intercept :: .nestedUnmarshalReq :: evs2,
             h2, .done (.err e))
          | .ok opt2 =>
            (g2, .unmarshalHookCall false .intercept :: .nestedUnmarshalReq :: evs2,
             h2, .done (.ok opt2))

/-- The host codec's top-level unmarshal entry for a destination of the
hooked type: hook first, and on json.SkipFunc the default decode of the
input into the destination. -/
def hostUnmarshal (opts : List (String × GoVal)) (cfg : Config) :
    Nat → Bool → GoVal → Json → Heap → Bool × List Ev × Heap × Res GoVal
  | 0, g, _, _, h => (g, [], h, .err .outOfFuel)
  | n + 1, g, target, input, h =>
    match unmarshalHookF opts cfg (hostUnmarshal opts cfg n) g target input h with
    | (g1, evs, h1, .skipFunc) =>
      let (t2, h2) := defaultDecodeInto h1 target input
      (g1, evs, h2, .ok t2)
    | (g1, evs, h1, .done r) => (g1, evs, h1, r)

/-- A fresh pipeline's top-level marshal of a value (guard initially
clear). Fuel 2 suffices: the single nested request is answered by the
guard branch without further recursion. -/
def marshalValue (opts : List (String × GoVal)) (cfg : Config) (det : Bool)
    (t : GoVal) (h : Heap) : Res Json :=
  (hostMarshal opts cfg det 2 false t h).2.2

/-- The events of that top-level marshal. -/
def marshalEvents (opts : List (String × GoVal)) (cfg : Config) (det : Bool)
    (t : GoVal) (h : Heap) : List Ev :=
  (hostMarshal opts cfg det 2 false t h).2.1

/-- A fresh pipeline's top-level unmarshal into a nil interface
destination (`var s2 fmt.Stringer`); the destination value is immaterial
because a guard-clear unmarshal hook invocation never consults it.
Returns the heap after the call and the decoded value. -/
def unmarshalValue (opts : List (String × GoVal)) (cfg : Config)
    (input : Json) (h : Heap) : Heap × Res GoVal :=
  let r := hostUnmarshal opts cfg 2 false (.val "" .null) input h
  (r.2.2.1, r.2.2.2)

/-- The events of that top-level unmarshal. -/
def unmarshalEvents (opts : List (String × GoVal)) (cfg : Config)
    (input : Json) (h : Heap) : List Ev :=
  (hostUnmarshal opts cfg 2 false (.val "" .null) input h).2.1

/-! ### Derived descriptions of the two pipelines

The following lemmas characterise the top-level entry points by the
branches of the hook code; every claim below is settled through them. -/

/-- A top-level marshal either passes a raw-payload value through to its
default encoding, fails discriminator resolution, or encodes the wrapper
around the value's default encoding. -/
theorem marshalValue_spec (opts : List (String × GoVal)) (cfg : Config) (det : Bool)
    (t : GoVal) (h : Heap) :
    marshalValue opts cfg det t h =
      (if t.isRawPayload then Res.ok (defaultEncode h t)
       else match resolveDiscriminator opts cfg t with
        | .err e => .err e
        | .ok d => encodeWrapper cfg.effStrategy det d (defaultEncode h t)) := by
  cases t with
  | raw j => rfl
  | val tn c =>
    cases hres : resolveDiscriminator opts cfg (GoVal.val tn c) with
    | err e => simp [marshalValue, hostMarshal, marshalHookF, hres, GoVal.isRawPayload]
    | ok d => simp [marshalValue, hostMarshal, marshalHookF, hres, GoVal.isRawPayload]
  | ptr tn a =>
    cases hres : resolveDiscriminator opts cfg (GoVal.ptr tn a) with
    | err e => simp [marshalValue, hostMarshal, marshalHookF, hres, GoVal.isRawPayload]
    | ok d => simp [marshalValue, hostMarshal, marshalHookF, hres, GoVal.isRawPayload]

/-- Event trace of a top-level marshal that intercepts and resolves a
discriminator: interception, then the nested default-encode request, then
the single guard-consuming pass-through. -/
theorem marshalEvents_intercept (opts : List (String × GoVal)) (cfg : Config)
    (det : Bool) (t : GoVal) (h : Heap) (d : String)
    (hraw : t.isRawPayload = false)
    (hres : resolveDiscriminator opts cfg t = .ok d) :
    marshalEvents opts cfg det t h =
      [.marshalHookCall false .intercept, .nestedMarshalReq,
       .marshalHookCall true .skipGuard] := by
  cases t with
  | raw j => simp [GoVal.isRawPayload] at hraw
  | val tn c => simp [marshalEvents, hostMarshal, marshalHookF, hres, GoVal.isRawPayload]
  | ptr tn a => simp [marshalEvents, hostMarshal, marshalHookF, hres, GoVal.isRawPayload]

/-- A top-level unmarshal decodes the wrapper, looks the tag up in the
option map, and, when a payload is present, default-decodes it into the
shallow copy of the selected option. -/
theorem unmarshalValue_spec (opts : List (String × GoVal)) (cfg : Config)
    (input : Json) (h : Heap) :
    unmarshalValue opts cfg input h =
      (match decodeWrapper cfg.effStrategy input with
       | .err e => (h, .err e)
       | .ok (tag, payload) =>
         match mapLookup tag opts with
         | none => (h, .err (.unknownDiscriminatorValue tag))
         | some opt =>
           match payload with
           | none => (h, .ok opt)
           | some pj =>
             ((defaultDecodeInto h opt pj).2, .ok (defaultDecodeInto h opt pj).1)) := by
  cases hdec : decodeWrapper cfg.effStrategy input with
  | err e => simp [unmarshalValue, hostUnmarshal, unmarshalHookF, hdec]
  | ok p =>
    obtain ⟨tag, payload⟩ := p
    cases hlook : mapLookup tag opts with
    | none => simp [unmarshalValue, hostUnmarshal, unmarshalHookF, hdec, hlook]
    | some opt =>
      cases payload with
      | none => simp [unmarshalValue, hostUnmarshal, unmarshalHookF, hdec, hlook]
      | some pj =>
        cases hdd : defaultDecodeInto h opt pj with
        | mk t2 h2 =>
          simp [unmarshalValue, hostUnmarshal, unmarshalHookF, hdec, hlook, hdd]

/-- Event trace of a top-level unmarshal whose wrapper decodes with a
non-empty payload and whose tag is registered: interception, the nested
default-decode request, and the single guard-consuming pass-through. -/
theorem unmarshalEvents_intercept (opts : List (String × GoVal)) (cfg : Config)
    (input : Json) (h : Heap) (tag : String) (pj : Json) (opt : GoVal)
    (hdec : decodeWrapper cfg.effStrategy input = .ok (tag, some pj))
    (hlook : mapLookup tag opts = some opt) :
    unmarshalEvents opts cfg input h =
      [.unmarshalHookCall false .intercept, .nestedUnmarshalReq,
       .unmarshalHookCall true .skipGuard] := by
  cases hdd : defaultDecodeInto h opt pj with
  | mk t2 h2 =>
    simp [unmarshalEvents, hostUnmarshal, unmarshalHookF, hdec, hlook, hdd]

/-- Event trace of a top-level unmarshal whose wrapper decodes with an
empty payload and whose tag is registered: the interception issues no
nested default-decode request at all. -/
theorem unmarshalEvents_noPayload (opts : List (String × GoVal)) (cfg : Config)
    (input : Json) (h : Heap) (tag : String) (opt : GoVal)
    (hdec : decodeWrapper cfg.effStrategy input = .ok (tag, none))
    (hlook : mapLookup tag opts = some opt) :
    unmarshalEvents opts cfg input h = [.unmarshalHookCall false .intercept] := by
  simp [unmarshalEvents, hostUnmarshal, unmarshalHookF, hdec, hlook]

/-- mapLookupJ misses exactly the names absent from the member list. -/
theorem mapLookupJ_eq_none (k : String) (ms : List (String × Json))
    (hk : k ∉ ms.map Prod.fst) : mapLookupJ k ms = none := by
  induction ms with
  | nil => rfl
  | cons p rest ih =>
    obtain ⟨k', v⟩ := p
    simp only [List.map_cons, List.mem_cons] at hk
    push_neg at hk
    have hne : ¬ k' = k := fun hh => hk.1 hh.symm
    simp only [mapLookupJ, if_neg hne]
    exact ih hk.2

/-- A successful mapLookup returns a registered entry. -/
theorem mapLookup_mem (k : String) (opts : List (String × GoVal)) (v : GoVal)
    (hl : mapLookup k opts = some v) : (k, v) ∈ opts := by
  induction opts with
  | nil => simp [mapLookup] at hl
  | cons p rest ih =>
    obtain ⟨k', v'⟩ := p
    by_cases hk : k' = k
    · subst hk
      simp [mapLookup] at hl
      simp [hl]
    · simp only [mapLookup, if_neg hk] at hl
      exact List.mem_cons_of_mem _ (ih hl)

/-- A successful mapLookupJ means the member list is non-empty. -/
theorem mapLookupJ_ne_nil (k : String) (ms : List (String × Json)) (v : Json)
    (hl : mapLookupJ k ms = some v) : ms.isEmpty = false := by
  cases ms with
  | nil => simp [mapLookupJ] at hl
  | cons p rest => rfl

/-- The defaulted discriminator key of a CustomValueWrapper is never
empty (an unset key becomes "_type"). -/
theorem effDiscriminatorKey_ne_empty (b : CustomValueWrapper) :
    ¬ b.effDiscriminatorKey = "" := by
  unfold CustomValueWrapper.effDiscriminatorKey
  by_cases hb : b.DiscriminatorKey = "" <;> simp [hb]

/-- A guard-clear marshal hook invocation on a non-raw value never
returns json.SkipFunc: it always proceeds with interception. -/
theorem marshalHookF_guardClear_intercepts (opts : List (String × GoVal))
    (cfg : Config) (det : Bool)
    (nestedM : Bool → GoVal → Heap → Bool × List Ev × Res Json)
    (t : GoVal) (h : Heap) (hraw : t.isRawPayload = false) :
    (marshalHookF opts cfg det nestedM false t h).2.2 ≠ .skipFunc := by
  unfold marshalHookF
  simp only [if_false, Bool.false_eq_true, hraw]
  cases hres : resolveDiscriminator opts cfg t with
  | err e => simp
  | ok d =>
    rcases hnm : nestedM true t h with ⟨g2, evs2, r2⟩
    cases r2 <;> simp [hnm]

/-- A guard-clear unmarshal hook invocation never returns json.SkipFunc,
whatever the destination (there is no raw-payload check on this side). -/
theorem unmarshalHookF_guardClear_intercepts (opts : List (String × GoVal))
    (cfg : Config)
    (nestedU : Bool → GoVal → Json → Heap → Bool × List Ev × Heap × Res GoVal)
    (target : GoVal) (input : Json) (h : Heap) :
    (unmarshalHookF opts cfg nestedU false target input h).2.2.2 ≠ .skipFunc := by
  unfold unmarshalHookF
  simp only [if_false, Bool.false_eq_true]
  cases hdec : decodeWrapper cfg.effStrategy input with
  | err e => simp
  | ok p =>
    obtain ⟨tag, payload⟩ := p
    cases hlook : mapLookup tag opts with
    | none => simp [hlook]
    | some opt =>
      cases payload with
      | none => simp [hlook]
      | some pj =>
        rcases hnu : nestedU true opt pj h with ⟨g2, evs2, h2, r2⟩
        cases r2 <;> simp [hnu, hlook]

/-- Full description of an intercepting top-level marshal: final guard
state, events and result. -/
theorem hostMarshal_intercept (opts : List (String × GoVal)) (cfg : Config)
    (det : Bool) (t : GoVal) (h : Heap) (d : String)
    (hraw : t.isRawPayload = false)
    (hres : resolveDiscriminator opts cfg t = .ok d) :
    hostMarshal opts cfg det 2 false t h
      = (false,
         [.marshalHookCall false .intercept, .nestedMarshalReq,
          .marshalHookCall true .skipGuard],
         encodeWrapper cfg.effStrategy det d (defaultEncode h t)) := by
  cases t with
  | raw j => simp [GoVal.isRawPayload] at hraw
  | val tn c => simp [hostMarshal, marshalHookF, hres, GoVal.isRawPayload]
  | ptr tn a => simp [hostMarshal, marshalHookF, hres, GoVal.isRawPayload]

/-- Full description of an intercepting top-level unmarshal with a
non-empty payload and registered tag. -/
theorem hostUnmarshal_intercept (opts : List (String × GoVal)) (cfg : Config)
    (target : GoVal) (input : Json) (h : Heap) (tag : String) (pj : Json)
    (opt : GoVal)
    (hdec : decodeWrapper cfg.effStrategy input = .ok (tag, some pj))
    (hlook : mapLookup tag opts = some opt) :
    hostUnmarshal opts cfg 2 false target input h
      = (false,
         [.unmarshalHookCall false .intercept, .nestedUnmarshalReq,
          .unmarshalHookCall true .skipGuard],
         (defaultDecodeInto h opt pj).2, .ok (defaultDecodeInto h opt pj).1) := by
  cases hdd : defaultDecodeInto h opt pj with
  | mk t2 h2 => simp [hostUnmarshal, unmarshalHookF, hdec, hlook, hdd]

/-!  ## The claims  -/

/-- C7: on encode, a value whose concrete type matches no registered
option fails with ErrUnknownGoType when no fallback is configured; with a
fallback f configured, marshaling succeeds and emits the wrapper with
f(value) as the tag and the value's default encoding as payload, even
when f(value) is absent from the registry. -/
theorem C7_unknown_type_fallback (opts : List (String × GoVal)) (det : Bool)
    (t : GoVal) (h : Heap)
    (hraw : t.isRawPayload = false)
    (hmiss : discriminatorValueFor t opts = none) :
    marshalValue opts ⟨none, none⟩ det t h = .err (.unknownGoType t.displayTypeName)
  ∧ ∀ f : GoVal → String, mapLookup (f t) opts = none →
      marshalValue opts ⟨some f, none⟩ det t h
        = .ok (.obj (("_type", .str (f t)) ::
            (if isEmptyJson (defaultEncode h t) then []
             else [("_value", defaultEncode h t)]))) := by
  constructor
  · rw [marshalValue_spec]
    simp [hraw, resolveDiscriminator, hmiss]
  · intro f hfmiss
    rw [marshalValue_spec]
    simp [hraw, resolveDiscriminator, hmiss, encodeWrapper, Config.effStrategy]

/-- Witness for C7 at a concrete unregistered value. -/
theorem C7_witness :
    marshalValue [("d", GoVal.val "T" Json.null)] ⟨none, none⟩ false
        (GoVal.val "U" (Json.num 5)) []
      = .err (.unknownGoType "U")
  ∧ marshalValue [("d", GoVal.val "T" Json.null)] ⟨some (fun _ => "zzz"), none⟩ false
        (GoVal.val "U" (Json.num 5)) []
      = .ok (.obj [("_type", .str "zzz"), ("_value", .num 5)]) := by
  have hmain := C7_unknown_type_fallback [("d", GoVal.val "T" Json.null)] false
      (GoVal.val "U" (Json.num 5)) [] (by decide) (by decide)
  exact ⟨hmain.1, hmain.2 (fun _ => "zzz") (by decide)⟩

/-- C9: a registered variant whose default encoding is the empty JSON
object marshals (default Nested strategy) to exactly the wrapper object
holding only the discriminator member; unmarshaling that exact object
returns the registered (zero-value) instance without issuing any nested
default-decode request. -/
theorem C9_empty_object_payload (opts : List (String × GoVal)) (det : Bool)
    (d tname : String) (z : GoVal) (h : Heap)
    (hres : discriminatorValueFor (GoVal.val tname (Json.obj [])) opts = some d)
    (hlook : mapLookup d opts = some z) :
    marshalValue opts ⟨none, none⟩ det (.val tname (.obj [])) h
      = .ok (.obj [("_type", .str d)])
  ∧ unmarshalValue opts ⟨none, none⟩ (.obj [("_type", .str d)]) h = (h, .ok z)
  ∧ unmarshalEvents opts ⟨none, none⟩ (.obj [("_type", .str d)]) h
      = [.unmarshalHookCall false .intercept] := by
  have hdec : decodeWrapper (Config.effStrategy ⟨none, none⟩) (.obj [("_type", .str d)])
      = .ok (d, none) := by
    simp [decodeWrapper, decodeNested, Config.effStrategy, mapLookupJ]
  refine ⟨?_, ?_, ?_⟩
  · rw [marshalValue_spec]
    simp [resolveDiscriminator, hres, encodeWrapper, Config.effStrategy,
      defaultEncode, isEmptyJson, GoVal.isRawPayload]
  · rw [unmarshalValue_spec]
    simp [hdec, hlook]
  · exact unmarshalEvents_noPayload _ _ _ _ _ _ hdec hlook

/-- Witness for C9 at a concrete registry. -/
theorem C9_witness :
    marshalValue [("d", GoVal.val "T" (Json.obj []))] ⟨none, none⟩ false
        (GoVal.val "T" (Json.obj [])) []
      = .ok (.obj [("_type", .str "d")])
  ∧ unmarshalValue [("d", GoVal.val "T" (Json.obj []))] ⟨none, none⟩
        (.obj [("_type", .str "d")]) []
      = ([], .ok (GoVal.val "T" (.obj [])))
  ∧ unmarshalEvents [("d", GoVal.val "T" (Json.obj []))] ⟨none, none⟩
        (.obj [("_type", .str "d")]) []
      = [.unmarshalHookCall false .intercept] :=
  C9_empty_object_payload [("d", GoVal.val "T" (Json.obj []))] false "d" "T"
    (GoVal.val "T" (.obj [])) [] (by decide) (by decide)

/-- C1 fails as stated: under the Inline strategy, a registered variant
whose instance's default encoding is the JSON object with a "_value"
member round-trips to a different value — the decoder treats the payload
key member as a nested payload, so the instance content {"_value":1}
comes back as the content 1. -/
theorem C1_counterexample :
    marshalValue [("d", GoVal.val "T" (Json.obj [("_value", Json.num 0)]))]
        ⟨none, some .inlineObjects⟩ false
        (GoVal.val "T" (Json.obj [("_value", Json.num 1)])) []
      = .ok (.obj [("_type", .str "d"), ("_value", .num 1)])
  ∧ unmarshalValue [("d", GoVal.val "T" (Json.obj [("_value", Json.num 0)]))]
        ⟨none, some .inlineObjects⟩
        (.obj [("_type", .str "d"), ("_value", .num 1)]) []
      = ([], .ok (GoVal.val "T" (.num 1)))
  ∧ GoVal.val "T" (Json.num 1) ≠ GoVal.val "T" (Json.obj [("_value", Json.num 1)]) := by
  decide

/-- C2 fails as stated: a marshal hook invocation that observes the guard
clear but is given a raw-payload value does not proceed with
interception — it passes through (the raw branch). -/
theorem C2_counterexample :
    hostMarshal [("d", GoVal.val "T" Json.null)] ⟨none, none⟩ false 2 false
        (GoVal.raw (Json.num 7)) []
      = (false, [.marshalHookCall false .skipRaw], .ok (.num 7)) := by
  decide

/-- C2 (amended): the recursion-guard protocol. Any hook invocation that
observes the guard set clears it and passes through, for both sides; an
intercepting top-level encode/decode sets the guard immediately before
its single nested default request, whose first hook invocation observes
the guard set and consumes it, leaving the guard clear at the end; and a
guard-clear invocation always proceeds with interception except for the
marshal hook's raw-payload pass-through. -/
theorem C2_guard_protocol (opts : List (String × GoVal)) (cfg : Config) (det : Bool) :
    (∀ (nestedM : Bool → GoVal → Heap → Bool × List Ev × Res Json) (t : GoVal) (h : Heap),
       marshalHookF opts cfg det nestedM true t h
         = (false, [.marshalHookCall true .skipGuard], .skipFunc))
  ∧ (∀ (nestedU : Bool → GoVal → Json → Heap → Bool × List Ev × Heap × Res GoVal)
       (target : GoVal) (input : Json) (h : Heap),
       unmarshalHookF opts cfg nestedU true target input h
         = (false, [.unmarshalHookCall true .skipGuard], h, .skipFunc))
  ∧ (∀ (t : GoVal) (h : Heap) (d : String),
       t.isRawPayload = false → resolveDiscriminator opts cfg t = .ok d →
       marshalEvents opts cfg det t h
         = [.marshalHookCall false .intercept, .nestedMarshalReq,
            .marshalHookCall true .skipGuard]
       ∧ (hostMarshal opts cfg det 2 false t h).1 = false)
  ∧ (∀ (input : Json) (h : Heap) (tag : String) (pj : Json) (opt : GoVal),
       decodeWrapper cfg.effStrategy input = .ok (tag, some pj) →
       mapLookup tag opts = some opt →
       unmarshalEvents opts cfg input h
         = [.unmarshalHookCall false .intercept, .nestedUnmarshalReq,
            .unmarshalHookCall true .skipGuard]
       ∧ (hostUnmarshal opts cfg 2 false (.val "" .null) input h).1 = false)
  ∧ (∀ (nestedM : Bool → GoVal → Heap → Bool × List Ev × Res Json) (t : GoVal) (h : Heap),
       t.isRawPayload = false →
       (marshalHookF opts cfg det nestedM false t h).2.2 ≠ .skipFunc)
  ∧ (∀ (nestedU : Bool → GoVal → Json → Heap → Bool × List Ev × Heap × Res GoVal)
       (target : GoVal) (input : Json) (h : Heap),
       (unmarshalHookF opts cfg nestedU false target input h).2.2.2 ≠ .skipFunc) := by
  refine ⟨fun _ _ _ => rfl, fun _ _ _ _ => rfl, ?_, ?_, ?_, ?_⟩
  · intro t h d hraw hres
    exact ⟨marshalEvents_intercept opts cfg det t h d hraw hres,
           by rw [hostMarshal_intercept opts cfg det t h d hraw hres]⟩
  · intro input h tag pj opt hdec hlook
    exact ⟨unmarshalEvents_intercept opts cfg input h tag pj opt hdec hlook,
           by rw [hostUnmarshal_intercept opts cfg _ input h tag pj opt hdec hlook]⟩
  · intro nestedM t h hraw
    exact marshalHookF_guardClear_intercepts opts cfg det nestedM t h hraw
  · intro nestedU target input h
    exact unmarshalHookF_guardClear_intercepts opts cfg nestedU target input h

/-- Witness for C2 (amended), instantiating the interception traces at a
concrete registry and value. -/
theorem C2_witness :
    marshalEvents [("d", GoVal.val "T" Json.null)] ⟨none, none⟩ false
        (GoVal.val "T" (Json.num 5)) []
      = [.marshalHookCall false .intercept, .nestedMarshalReq,
         .marshalHookCall true .skipGuard]
  ∧ unmarshalEvents [("d", GoVal.val "T" Json.null)] ⟨none, none⟩
        (.obj [("_type", .str "d"), ("_value", .num 5)]) []
      = [.unmarshalHookCall false .intercept, .nestedUnmarshalReq,
         .unmarshalHookCall true .skipGuard] :=
  ⟨((C2_guard_protocol [("d", GoVal.val "T" Json.null)] ⟨none, none⟩ false).2.2.1
      (GoVal.val "T" (Json.num 5)) [] "d" (by decide) (by decide)).1,
   ((C2_guard_protocol [("d", GoVal.val "T" Json.null)] ⟨none, none⟩ false).2.2.2.1
      (.obj [("_type", .str "d"), ("_value", .num 5)]) [] "d" (.num 5)
      (GoVal.val "T" Json.null) (by decide) (by decide)).1⟩

/-- C8 fails as stated: the unmarshal hook has no raw-payload check, so
an invocation with a *jsontext.Value destination and the guard clear does
not pass through — it intercepts, decoding the wrapper and returning the
registry-selected value instead of the raw input. -/
theorem C8_counterexample :
    (hostUnmarshal [("d", GoVal.val "T" (Json.obj []))] ⟨none, none⟩ 2 false
        (GoVal.raw Json.null) (.obj [("_type", .str "d")]) []).2.1
      = [.unmarshalHookCall false .intercept]
  ∧ (hostUnmarshal [("d", GoVal.val "T" (Json.obj []))] ⟨none, none⟩ 2 false
        (GoVal.raw Json.null) (.obj [("_type", .str "d")]) []).2.2.2
      = .ok (GoVal.val "T" (.obj [])) := by
  decide

/-- C8 (amended): only the marshal hook checks for the raw-payload type,
and that check sits after the guard check: with the guard clear a raw
value passes through leaving the guard unconsumed, while with the guard
set the guard branch fires first and consumes the deferred invocation;
the unmarshal hook never passes through when the guard is clear,
whatever the destination type. -/
theorem C8_raw_passthrough (opts : List (String × GoVal)) (cfg : Config) (det : Bool) :
    (∀ (nestedM : Bool → GoVal → Heap → Bool × List Ev × Res Json) (j : Json) (h : Heap),
       marshalHookF opts cfg det nestedM false (.raw j) h
         = (false, [.marshalHookCall false .skipRaw], .skipFunc))
  ∧ (∀ (nestedM : Bool → GoVal → Heap → Bool × List Ev × Res Json) (j : Json) (h : Heap),
       marshalHookF opts cfg det nestedM true (.raw j) h
         = (false, [.marshalHookCall true .skipGuard], .skipFunc))
  ∧ (∀ (nestedU : Bool → GoVal → Json → Heap → Bool × List Ev × Heap × Res GoVal)
       (target : GoVal) (input : Json) (h : Heap),
       (unmarshalHookF opts cfg nestedU false target input h).2.2.2 ≠ .skipFunc) :=
  ⟨fun _ _ _ => rfl, fun _ _ _ => rfl,
   fun nestedU target input h =>
     unmarshalHookF_guardClear_intercepts opts cfg nestedU target input h⟩

/-- C3 fails as stated: with a pointer-registered option (&url.URL{}
style), decode writes through the registered pointer. Two successive
decodes through the same option map return the very same pointer (they
alias), the heap cell backing the registered entry changes across the
calls (the registered entry is mutated), and the second decode overwrites
the content the first result still points to. -/
theorem C3_counterexample :
    unmarshalValue [("u", GoVal.ptr "URL" 0)] ⟨none, none⟩
        (.obj [("_type", .str "u"), ("_value", .obj [("h", .num 1)])]) [Json.obj []]
      = ([Json.obj [("h", Json.num 1)]], .ok (GoVal.ptr "URL" 0))
  ∧ unmarshalValue [("u", GoVal.ptr "URL" 0)] ⟨none, none⟩
        (.obj [("_type", .str "u"), ("_value", .obj [("h", .num 2)])])
        [Json.obj [("h", Json.num 1)]]
      = ([Json.obj [("h", Json.num 2)]], .ok (GoVal.ptr "URL" 0))
  ∧ defaultEncode [Json.obj [("h", Json.num 1)]] (GoVal.ptr "URL" 0)
      ≠ defaultEncode [Json.obj []] (GoVal.ptr "URL" 0)
  ∧ defaultEncode [Json.obj [("h", Json.num 2)]] (GoVal.ptr "URL" 0)
      ≠ defaultEncode [Json.obj [("h", Json.num 1)]] (GoVal.ptr "URL" 0) := by
  decide

/-- Whether a GoVal is a plain (non-pointer, non-raw) value. -/
def GoVal.isValKind : GoVal → Bool
  | .val _ _ => true
  | _ => false

/-- C3 (amended): decode copies the looked-up registry entry shallowly.
When every registered option is a plain value, no unmarshal call ever
touches the heap, so registered entries are never mutated and successive
decodes through the same option map are independent of each other. -/
theorem C3_value_registry_frame (opts : List (String × GoVal)) (cfg : Config)
    (input : Json) (h : Heap)
    (hvals : opts.all (fun p => p.2.isValKind) = true) :
    (unmarshalValue opts cfg input h).1 = h
  ∧ ∀ input2 : Json,
      unmarshalValue opts cfg input2 (unmarshalValue opts cfg input h).1
        = unmarshalValue opts cfg input2 h := by
  have hframe : ∀ (inp : Json), (unmarshalValue opts cfg inp h).1 = h := by
    intro inp
    rw [unmarshalValue_spec]
    cases hdec : decodeWrapper cfg.effStrategy inp with
    | err e => simp [hdec]
    | ok p =>
      obtain ⟨tag, payload⟩ := p
      cases hlook : mapLookup tag opts with
      | none => simp [hdec, hlook]
      | some opt =>
        have hmem := mapLookup_mem tag opts opt hlook
        have hval : opt.isValKind = true := by
          have := List.all_eq_true.mp hvals ⟨tag, opt⟩ hmem
          exact this
        cases opt with
        | val tn c =>
          cases payload with
          | none => simp [hdec, hlook]
          | some pj => simp [hdec, hlook, defaultDecodeInto]
        | ptr tn a => simp [GoVal.isValKind] at hval
        | raw j => simp [GoVal.isValKind] at hval
  exact ⟨hframe input, fun input2 => by rw [hframe input]⟩

/-- Witness for C3 (amended) at a concrete value-registered option map. -/
theorem C3_witness :
    (unmarshalValue [("d", GoVal.val "T" Json.null)] ⟨none, none⟩
        (.obj [("_type", .str "d"), ("_value", .num 3)]) []).1 = []
  ∧ ∀ input2 : Json,
      unmarshalValue [("d", GoVal.val "T" Json.null)] ⟨none, none⟩ input2
          (unmarshalValue [("d", GoVal.val "T" Json.null)] ⟨none, none⟩
            (.obj [("_type", .str "d"), ("_value", .num 3)]) []).1
        = unmarshalValue [("d", GoVal.val "T" Json.null)] ⟨none, none⟩ input2 [] :=
  C3_value_registry_frame [("d", GoVal.val "T" Json.null)] ⟨none, none⟩
    (.obj [("_type", .str "d"), ("_value", .num 3)]) [] (by decide)

/-- C4 fails as stated: under the built-in Inline strategy (WrapInline),
decoding an object that has both the payload-key member and another
sibling besides the tag key does not fail — the struct-tag decoder stores
the siblings in the inline field, Value() silently prefers the nested
member, and the decode succeeds. -/
theorem C4_counterexample :
    unmarshalValue [("x", GoVal.val "T" Json.null)] ⟨none, some .inlineObjects⟩
        (.obj [("_type", .str "x"), ("_value", .num 1), ("extra", .num 2)]) []
      = ([], .ok (GoVal.val "T" (.num 1))) := by
  decide

/-- C4 (amended): the ambiguity check lives only in CustomValueWrapper's
decoder: for any CustomValueWrapper (the decode path never consults the
InlineObjects flag), decoding an object that still contains both the
payload-key member and at least one other member after the tag-key member
is removed fails with AmbiguousPayloadShape. -/
theorem C4_custom_ambiguity (b : CustomValueWrapper) (opts : List (String × GoVal))
    (h : Heap) (ms : List (String × Json)) (dvs : String) (nv : Json)
    (hnodup : (ms.map Prod.fst).Nodup)
    (hdk : mapLookupJ b.effDiscriminatorKey ms = some (.str dvs))
    (hnk : mapLookupJ b.effNestedValueKey
        (ms.filter (fun p => !(p.1 = b.effDiscriminatorKey))) = some nv)
    (hrest : ((ms.filter (fun p => !(p.1 = b.effDiscriminatorKey))).filter
        (fun p => !(p.1 = b.effNestedValueKey))).isEmpty = false) :
    unmarshalValue opts ⟨none, some (.custom b)⟩ (.obj ms) h
      = (h, .err .ambiguousPayloadShape) := by
  have hm1 : (ms.filter (fun p => !(p.1 = b.effDiscriminatorKey))).isEmpty = false :=
    mapLookupJ_ne_nil _ _ _ hnk
  have hdec : decodeWrapper (Config.effStrategy ⟨none, some (.custom b)⟩) (.obj ms)
      = .err .ambiguousPayloadShape := by
    simp [decodeWrapper, Config.effStrategy, decodeCustom, hnodup, hdk, hnk, hm1]
    simpa using hrest
  rw [unmarshalValue_spec]
  simp [hdec]

/-- Witness for C4 (amended) at the spec's own example input. -/
theorem C4_witness :
    unmarshalValue [("x", GoVal.val "T" Json.null)] ⟨none, some (.custom ⟨"", "", true⟩)⟩
        (.obj [("_type", .str "x"), ("_value", .num 1), ("extra", .num 2)]) []
      = ([], .err .ambiguousPayloadShape) :=
  C4_custom_ambiguity ⟨"", "", true⟩ [("x", GoVal.val "T" Json.null)] []
    [("_type", .str "x"), ("_value", .num 1), ("extra", .num 2)] "x" (.num 1)
    (by decide) (by decide) (by decide) (by decide)

/-- C5 fails as stated: under the default Nested wrapper, an input object
with no tag-key member decodes into the wrapper struct without error
(Typ stays ""), and the failure surfaces as UnknownDiscriminator for the
empty tag — not as MalformedWrapper. -/
theorem C5_counterexample :
    unmarshalValue [("d", GoVal.val "T" Json.null)] ⟨none, none⟩
        (.obj [("_value", .num 1)]) []
      = ([], .err (.unknownDiscriminatorValue "")) := by
  decide

/-- C5 (amended): non-object input and a non-string tag member fail with
MalformedWrapper under both the default Nested wrapper and
CustomValueWrapper, and a missing tag member fails with MalformedWrapper
under CustomValueWrapper; but under the default Nested wrapper a missing
tag member instead leaves the tag empty, so the decode fails with
UnknownDiscriminator for "" whenever "" is unregistered. -/
theorem C5_malformed_wrapper (opts : List (String × GoVal))
    (b : CustomValueWrapper) (h : Heap) :
    (∀ input : Json, input.isObj = false →
        unmarshalValue opts ⟨none, none⟩ input h
          = (h, .err (.malformedWrapper "cannot unmarshal non-object into wrapper"))
      ∧ unmarshalValue opts ⟨none, some (.custom b)⟩ input h
          = (h, .err (.malformedWrapper "expected object start")))
  ∧ (∀ (ms : List (String × Json)) (j : Json), (ms.map Prod.fst).Nodup →
        mapLookupJ "_type" ms = some j → j.isStr = false →
        unmarshalValue opts ⟨none, none⟩ (.obj ms) h
          = (h, .err (.malformedWrapper "cannot unmarshal non-string into Typ")))
  ∧ (∀ ms : List (String × Json), (ms.map Prod.fst).Nodup →
        mapLookupJ b.effDiscriminatorKey ms = none →
        unmarshalValue opts ⟨none, some (.custom b)⟩ (.obj ms) h
          = (h, .err (.malformedWrapper
              ("missing discriminator " ++ b.effDiscriminatorKey))))
  ∧ (∀ (ms : List (String × Json)) (j : Json), (ms.map Prod.fst).Nodup →
        mapLookupJ b.effDiscriminatorKey ms = some j → j.isStr = false →
        unmarshalValue opts ⟨none, some (.custom b)⟩ (.obj ms) h
          = (h, .err (.malformedWrapper
              ("discriminator " ++ b.effDiscriminatorKey ++ " must be a string"))))
  ∧ (∀ ms : List (String × Json), (ms.map Prod.fst).Nodup →
        mapLookupJ "_type" ms = none → mapLookup "" opts = none →
        unmarshalValue opts ⟨none, none⟩ (.obj ms) h
          = (h, .err (.unknownDiscriminatorValue ""))) := by
  refine ⟨?_, ?_, ?_, ?_, ?_⟩
  · intro input hobj
    constructor
    · rw [unmarshalValue_spec]
      have hdec : decodeWrapper (Config.effStrategy ⟨none, none⟩) input
          = .err (.malformedWrapper "cannot unmarshal non-object into wrapper") := by
        cases input with
        | obj ms => simp [Json.isObj] at hobj
        | null => rfl
        | bool v => rfl
        | num n => rfl
        | str s => rfl
        | arr xs => rfl
      simp [hdec]
    · rw [unmarshalValue_spec]
      have hdec : decodeWrapper (Config.effStrategy ⟨none, some (.custom b)⟩) input
          = .err (.malformedWrapper "expected object start") := by
        cases input with
        | obj ms => simp [Json.isObj] at hobj
        | null => rfl
        | bool v => rfl
        | num n => rfl
        | str s => rfl
        | arr xs => rfl
      simp [hdec]
  · intro ms j hnodup hty hstr
    rw [unmarshalValue_spec]
    have hdec : decodeWrapper (Config.effStrategy ⟨none, none⟩) (.obj ms)
        = .err (.malformedWrapper "cannot unmarshal non-string into Typ") := by
      cases j <;>
        simp_all [decodeWrapper, decodeNested, Config.effStrategy, Json.isStr]
    simp [hdec]
  · intro ms hnodup hdk
    rw [unmarshalValue_spec]
    have hdec : decodeWrapper (Config.effStrategy ⟨none, some (.custom b)⟩) (.obj ms)
        = .err (.malformedWrapper ("missing discriminator " ++ b.effDiscriminatorKey)) := by
      simp [decodeWrapper, decodeCustom, Config.effStrategy, hnodup, hdk]
    simp [hdec]
  · intro ms j hnodup hdk hstr
    rw [unmarshalValue_spec]
    have hdec : decodeWrapper (Config.effStrategy ⟨none, some (.custom b)⟩) (.obj ms)
        = .err (.malformedWrapper
            ("discriminator " ++ b.effDiscriminatorKey ++ " must be a string")) := by
      cases j <;>
        simp_all [decodeWrapper, decodeCustom, Config.effStrategy, Json.isStr]
    simp [hdec]
  · intro ms hnodup hty hno
    rw [unmarshalValue_spec]
    have hdec : decodeWrapper (Config.effStrategy ⟨none, none⟩) (.obj ms)
        = .ok ("", mapLookupJ "_value" ms) := by
      simp [decodeWrapper, decodeNested, Config.effStrategy, hnodup, hty]
    simp [hdec, hno]

/-- Witness for C5 (amended), instantiating every conjunct concretely. -/
theorem C5_witness :
    unmarshalValue [("d", GoVal.val "T" Json.null)] ⟨none, none⟩ (.num 3) []
      = ([], .err (.malformedWrapper "cannot unmarshal non-object into wrapper"))
  ∧ unmarshalValue [("d", GoVal.val "T" Json.null)]
        ⟨none, some (.custom ⟨"", "", false⟩)⟩ (.num 3) []
      = ([], .err (.malformedWrapper "expected object start"))
  ∧ unmarshalValue [("d", GoVal.val "T" Json.null)] ⟨none, none⟩
        (.obj [("_type", .num 1)]) []
      = ([], .err (.malformedWrapper "cannot unmarshal non-string into Typ"))
  ∧ unmarshalValue [("d", GoVal.val "T" Json.null)]
        ⟨none, some (.custom ⟨"", "", false⟩)⟩ (.obj [("x", .num 1)]) []
      = ([], .err (.malformedWrapper "missing discriminator _type"))
  ∧ unmarshalValue [("d", GoVal.val "T" Json.null)]
        ⟨none, some (.custom ⟨"", "", false⟩)⟩ (.obj [("_type", .num 1)]) []
      = ([], .err (.malformedWrapper "discriminator _type must be a string"))
  ∧ unmarshalValue [("d", GoVal.val "T" Json.null)] ⟨none, none⟩
        (.obj [("x", .num 1)]) []
      = ([], .err (.unknownDiscriminatorValue "")) := by
  have hmain := C5_malformed_wrapper [("d", GoVal.val "T" Json.null)] ⟨"", "", false⟩ []
  exact ⟨(hmain.1 (.num 3) (by decide)).1,
         (hmain.1 (.num 3) (by decide)).2,
         hmain.2.1 [("_type", .num 1)] (.num 1) (by decide) (by decide) (by decide),
         hmain.2.2.1 [("x", .num 1)] (by decide) (by decide),
         hmain.2.2.2.1 [("_type", .num 1)] (.num 1) (by decide) (by decide) (by decide),
         hmain.2.2.2.2 [("x", .num 1)] (by decide) (by decide) (by decide)⟩

/-- C6 fails as stated: a CustomValueWrapper with an empty
DiscriminatorKey is not a configuration error — Wrap silently falls back
to the default key "_type", and a full encode through the pipeline
succeeds and produces output. -/
theorem C6_counterexample :
    marshalValue [("d", GoVal.val "T" Json.null)]
        ⟨none, some (.custom ⟨"", "", false⟩)⟩ false (GoVal.val "T" (.num 1)) []
      = .ok (.obj [("_type", .str "d"), ("_value", .num 1)]) := by
  decide

/-- C6 (amended): an empty DiscriminatorKey on CustomValueWrapper simply
selects the default key "_type" for both encode and decode; the
"custom discriminator key is empty" error exists only in
customKeyWrappedType.MarshalJSONV2, so it can be reached only by a
directly constructed wrapped value and only at encode time — the decoder
has no such check at all. -/
theorem C6_empty_key_defaults (nk : String) (inl : Bool) :
    (∀ (det : Bool) (typ : String) (v : Json),
        encodeWrapper (.custom ⟨"", nk, inl⟩) det typ v
          = encodeWrapper (.custom ⟨"_type", nk, inl⟩) det typ v)
  ∧ (∀ input : Json,
        decodeWrapper (.custom ⟨"", nk, inl⟩) input
          = decodeWrapper (.custom ⟨"_type", nk, inl⟩) input)
  ∧ (∀ (w : CustomKeyWrapped) (det : Bool), w.discriminatorKey = "" →
        w.marshalJSONV2 det
          = .err (.configurationError "custom discriminator key is empty"))
  ∧ (∀ (dk nkk : String) (input : Json) (msg : String),
        decodeCustom dk nkk input ≠ .err (.configurationError msg)) := by
  refine ⟨fun _ _ _ => rfl, fun _ => rfl, ?_, ?_⟩
  · intro w det hw
    unfold CustomKeyWrapped.marshalJSONV2
    simp [hw]
  · intro dk nkk input msg
    cases input with
    | obj ms =>
      simp only [decodeCustom]
      (repeat' split) <;> simp
    | null => simp [decodeCustom]
    | bool v => simp [decodeCustom]
    | num n => simp [decodeCustom]
    | str s => simp [decodeCustom]
    | arr xs => simp [decodeCustom]

/-- Witness for C6 (amended) at a directly constructed wrapped value with
an empty discriminator key. -/
theorem C6_witness :
    CustomKeyWrapped.marshalJSONV2 ⟨"", "x", "_value", some (Json.num 1), none⟩ false
      = .err (.configurationError "custom discriminator key is empty") :=
  (C6_empty_key_defaults "x" false).2.2.1
    ⟨"", "x", "_value", some (Json.num 1), none⟩ false rfl

/-- C1 (amended): round-trip through the same option map, for an
instance of a registered plain-value variant. Under the default Nested
strategy it holds whenever the instance's default encoding is not an
empty JSON value (an empty one is dropped by omitempty and decode then
returns the registered instance instead). Under the Inline strategy it
holds whenever the default encoding is a non-empty JSON object whose
member names include neither the tag key "_type" nor the payload key
"_value". -/
theorem C1_roundtrip_conditional (opts : List (String × GoVal)) (det : Bool)
    (d t : String) (j j0 : Json) (h : Heap)
    (hres : discriminatorValueFor (GoVal.val t j) opts = some d)
    (hlook : mapLookup d opts = some (GoVal.val t j0)) :
    (isEmptyJson j = false →
        marshalValue opts ⟨none, none⟩ det (.val t j) h
          = .ok (.obj [("_type", .str d), ("_value", j)])
      ∧ unmarshalValue opts ⟨none, none⟩ (.obj [("_type", .str d), ("_value", j)]) h
          = (h, .ok (.val t j)))
  ∧ (∀ ms : List (String × Json), j = .obj ms → ms.isEmpty = false →
        "_type" ∉ ms.map Prod.fst → "_value" ∉ ms.map Prod.fst →
        (ms.map Prod.fst).Nodup →
        marshalValue opts ⟨none, some .inlineObjects⟩ det (.val t j) h
          = .ok (.obj (("_type", .str d) :: ms))
      ∧ unmarshalValue opts ⟨none, some .inlineObjects⟩
            (.obj (("_type", .str d) :: ms)) h
          = (h, .ok (.val t j))) := by
  have hresolve : ∀ cfg : Config, resolveDiscriminator opts cfg (GoVal.val t j) = .ok d := by
    intro cfg
    simp [resolveDiscriminator, hres]
  constructor
  · intro hne
    constructor
    · rw [marshalValue_spec]
      simp [GoVal.isRawPayload, hresolve, encodeWrapper, Config.effStrategy,
        defaultEncode, hne]
    · rw [unmarshalValue_spec]
      have hdec : decodeWrapper (Config.effStrategy ⟨none, none⟩)
          (.obj [("_type", .str d), ("_value", j)]) = .ok (d, some j) := by
        simp [decodeWrapper, decodeNested, Config.effStrategy, mapLookupJ]
      simp [hdec, hlook, defaultDecodeInto]
  · intro ms hj hne htype hvalue hnodup
    subst hj
    have hcons : (("_type", Json.str d) :: ms).map Prod.fst
        = "_type" :: ms.map Prod.fst := rfl
    have hconsnd : ("_type" :: ms.map Prod.fst).Nodup :=
      List.nodup_cons.mpr ⟨htype, hnodup⟩
    constructor
    · rw [marshalValue_spec]
      simp [GoVal.isRawPayload, hresolve, encodeWrapper, Config.effStrategy,
        defaultEncode, hconsnd]
    · rw [unmarshalValue_spec]
      have hrest : ms.filter (fun p => !(p.1 = "_type") && !(p.1 = "_value")) = ms := by
        rw [List.filter_eq_self]
        intro p hp
        have h1 : p.1 ≠ "_type" := fun hh => htype (hh ▸ List.mem_map_of_mem Prod.fst hp)
        have h2 : p.1 ≠ "_value" := fun hh => hvalue (hh ▸ List.mem_map_of_mem Prod.fst hp)
        simp [h1, h2]
      have hlvms : mapLookupJ "_value" ms = none := mapLookupJ_eq_none _ _ hvalue
      have hdec : decodeWrapper (Config.effStrategy ⟨none, some .inlineObjects⟩)
          (.obj (("_type", .str d) :: ms)) = .ok (d, some (.obj ms)) := by
        simp [decodeWrapper, decodeInline, Config.effStrategy, mapLookupJ, hlvms,
          hrest, hconsnd, hne]
      simp [hdec, hlook, defaultDecodeInto]

/-- Witness for C1 (amended), one concrete round trip per strategy. -/
theorem C1_witness :
    (marshalValue [("d", GoVal.val "T" Json.null)] ⟨none, none⟩ false
        (GoVal.val "T" (.num 5)) []
      = .ok (.obj [("_type", .str "d"), ("_value", .num 5)])
    ∧ unmarshalValue [("d", GoVal.val "T" Json.null)] ⟨none, none⟩
        (.obj [("_type", .str "d"), ("_value", .num 5)]) []
      = ([], .ok (GoVal.val "T" (.num 5))))
  ∧ (marshalValue [("d", GoVal.val "T" Json.null)] ⟨none, some .inlineObjects⟩ false
        (GoVal.val "T" (.obj [("a", .num 1)])) []
      = .ok (.obj [("_type", .str "d"), ("a", .num 1)])
    ∧ unmarshalValue [("d", GoVal.val "T" Json.null)] ⟨none, some .inlineObjects⟩
        (.obj [("_type", .str "d"), ("a", .num 1)]) []
      = ([], .ok (GoVal.val "T" (.obj [("a", .num 1)])))) :=
  ⟨(C1_roundtrip_conditional [("d", GoVal.val "T" Json.null)] false "d" "T"
      (.num 5) Json.null [] (by decide) (by decide)).1 (by decide),
   (C1_roundtrip_conditional [("d", GoVal.val "T" Json.null)] false "d" "T"
      (.obj [("a", .num 1)]) Json.null [] (by decide) (by decide)).2
     [("a", .num 1)] rfl (by decide) (by decide) (by decide) (by decide)⟩

/-- In a duplicate-free list, a present element is picked out exactly
once by filtering on equality with it. -/
theorem nodup_filter_eq_singleton {α : Type} [DecidableEq α] (l : List α)
    (hnd : l.Nodup) (a : α) (ha : a ∈ l) :
    l.filter (fun q => q = a) = [a] := by
  induction l with
  | nil => cases ha
  | cons x xs ih =>
    rcases List.nodup_cons.mp hnd with ⟨hx, hxs⟩
    rcases List.mem_cons.mp ha with rfl | hmem
    · have hnone : xs.filter (fun q => q = a) = [] := by
        rw [List.filter_eq_nil_iff]
        intro q hq
        simp only [decide_eq_true_eq]
        exact fun hh => hx (hh ▸ hq)
      simp [List.filter_cons, hnone]
    · have hne : ¬ x = a := fun hh => hx (hh ▸ hmem)
      simp only [List.filter_cons, decide_eq_true_eq, hne, if_false]
      simpa [hne] using ih hxs hmem

/-- C10: encoding an inline object payload through CustomValueWrapper
with json.Deterministic emits the discriminator member first and then the
payload's members sorted lexicographically by name; without the option
the members are emitted in map order, each exactly once. -/
theorem C10_deterministic_inline_order (b : CustomValueWrapper) (d : String)
    (ms : List (String × Json))
    (hinl : b.InlineObjects = true)
    (hnodup : (ms.map Prod.fst).Nodup)
    (hdk : b.effDiscriminatorKey ∉ ms.map Prod.fst) :
    (∃ l, encodeWrapper (.custom b) true d (.obj ms)
        = .ok (.obj ((b.effDiscriminatorKey, .str d) :: l))
      ∧ List.Sorted keyLe l ∧ l.Perm ms)
  ∧ encodeWrapper (.custom b) false d (.obj ms)
      = .ok (.obj ((b.effDiscriminatorKey, .str d) :: ms))
  ∧ ∀ p ∈ ms, ms.filter (fun q => q = p) = [p] := by
  have hkey := effDiscriminatorKey_ne_empty b
  have hwrap : b.wrap d (some (.obj ms)) =
      { discriminatorKey := b.effDiscriminatorKey, discriminatorValue := d,
        nestedValueKey := b.effNestedValueKey, nestedValue := none,
        inlineValue := some (.obj ms) } := by
    simp [CustomValueWrapper.wrap, Json.isObj, hinl]
  refine ⟨⟨List.insertionSort keyLe ms, ?_, ?_, ?_⟩, ?_, ?_⟩
  · simp [encodeWrapper, hwrap, CustomKeyWrapped.marshalJSONV2, hkey, hnodup, hdk]
  · exact List.sorted_insertionSort keyLe ms
  · exact List.perm_insertionSort keyLe ms
  · simp [encodeWrapper, hwrap, CustomKeyWrapped.marshalJSONV2, hkey, hnodup, hdk]
  · intro p hp
    exact nodup_filter_eq_singleton ms (List.Nodup.of_map Prod.fst hnodup) p hp

/-- Witness for C10 at a concrete two-member payload. -/
theorem C10_witness :
    (∃ l, encodeWrapper (.custom ⟨"$t", "$v", true⟩) true "d"
          (.obj [("b", .num 1), ("a", .num 2)])
        = .ok (.obj (("$t", .str "d") :: l))
      ∧ List.Sorted keyLe l ∧ l.Perm [("b", Json.num 1), ("a", Json.num 2)])
  ∧ encodeWrapper (.custom ⟨"$t", "$v", true⟩) false "d"
        (.obj [("b", .num 1), ("a", .num 2)])
      = .ok (.obj [("$t", .str "d"), ("b", .num 1), ("a", .num 2)])
  ∧ ∀ p ∈ [("b", Json.num 1), ("a", Json.num 2)],
      [("b", Json.num 1), ("a", Json.num 2)].filter (fun q => q = p) = [p] :=
  C10_deterministic_inline_order ⟨"$t", "$v", true⟩ "d"
    [("b", .num 1), ("a", .num 2)] rfl (by decide) (by decide)

end Oneof
